import Mathlib

/-!
Verification development for the tunnelmesh repository.

The Go sources are shallowly embedded:
* byte streams are `List Nat` (each element one byte);
* `io.Reader`-style reads are modelled by `readBytes`, which fails
  (returns `none`) exactly when the stream is truncated;
* machine integers are `Nat`/`Int` with explicit `% 2^w` where the Go
  code truncates (`uint16(len(s))`, `uint32(len(buf))`, ...);
* `time.Time`/`time.Duration` are `Int` (nanoseconds);
* `float64` quantities (token counts, throughput) are `ℚ`;
* fallible operations return `Option`.
-/

namespace Tunnelmesh

/-! ## Byte-stream primitives (binary.Read / binary.Write / io.ReadFull) -/

/-- Big-endian value of a byte list (`binary.BigEndian` decode). -/
def beVal (bs : List Nat) : Nat :=
  bs.foldl (fun a b => a * 256 + b) 0

/-- Big-endian encoding of a `uint16` (`binary.Write` of a 2-byte value);
the `% 256` on each byte realises the truncation `uint16 v`. -/
def u16Bytes (v : Nat) : List Nat :=
  [v / 256 % 256, v % 256]

/-- Big-endian encoding of a `uint32`. -/
def u32Bytes (v : Nat) : List Nat :=
  [v / 16777216 % 256, v / 65536 % 256, v / 256 % 256, v % 256]

/-- Big-endian encoding of a `uint64`. -/
def u64Bytes (v : Nat) : List Nat :=
  [v / 72057594037927936 % 256, v / 281474976710656 % 256,
   v / 1099511627776 % 256, v / 4294967296 % 256,
   v / 16777216 % 256, v / 65536 % 256, v / 256 % 256, v % 256]

/-- Big-endian two's-complement encoding of an `int64`
(`binary.Write` of an `int64`). -/
def i64Bytes (v : Int) : List Nat :=
  u64Bytes (v % 18446744073709551616).toNat

/-- Big-endian two's-complement decode of 8 bytes into an `int64`. -/
def i64OfBytes (bs : List Nat) : Int :=
  if beVal bs < 9223372036854775808 then (beVal bs : Int)
  else (beVal bs : Int) - 18446744073709551616

/-- Model of `io.ReadFull` / fixed-width `binary.Read`: take `n` bytes from the
stream, failing on a truncated stream. -/
def readBytes (n : Nat) (bs : List Nat) : Option (List Nat × List Nat) :=
  if n ≤ bs.length then some (bs.take n, bs.drop n) else none

/-! ## Benchmark protocol messages (internal/benchmark, messages file) -/

/-- Message type constants: Start 0x30, Ack 0x31, Data 0x32, Complete 0x33,
Ping 0x34, Pong 0x35, Error 0x3F. -/
def MsgStart : Nat := 0x30
def MsgAck : Nat := 0x31
def MsgData : Nat := 0x32
def MsgComplete : Nat := 0x33
def MsgPing : Nat := 0x34
def MsgPong : Nat := 0x35
def MsgError : Nat := 0x3F

/-- The message-type bytes the codec defines (all other bytes are
"Unknown" in `MessageType.String`). -/
def knownTypes : List Nat := [MsgStart, MsgAck, MsgData, MsgComplete, MsgPing, MsgPong, MsgError]

/-- Model of `writeString`: `u16 BE length | bytes`; Go strings are byte lists here.
`uint16(len(s))` truncates the length modulo 2^16, which `u16Bytes`
performs byte-wise. -/
def writeString (s : List Nat) : List Nat :=
  u16Bytes s.length ++ s

/-- Model of `readString`: read a `u16 BE` length, then that many bytes
(a zero length short-circuits to the empty string, as in the source). -/
def readString (bs : List Nat) : Option (List Nat × List Nat) :=
  (readBytes 2 bs).bind fun p =>
    if beVal p.1 = 0 then some ([], p.2)
    else readBytes (beVal p.1) p.2

/-- Struct `StartMessage{Size int64, Direction string}`. -/
structure StartMessage where
  Size : Int
  Direction : List Nat
  deriving DecidableEq

/-- Method `StartMessage.Encode`. -/
def StartMessage.encode (m : StartMessage) : List Nat :=
  i64Bytes m.Size ++ writeString m.Direction

/-- Method `StartMessage.Decode`. -/
def StartMessage.decode (bs : List Nat) : Option (StartMessage × List Nat) :=
  (readBytes 8 bs).bind fun p1 =>
  (readString p1.2).bind fun p2 =>
  some (⟨i64OfBytes p1.1, p2.1⟩, p2.2)

/-- Struct `AckMessage{Accepted bool, Error string}`. -/
structure AckMessage where
  Accepted : Bool
  Error : List Nat
  deriving DecidableEq

/-- Method `AckMessage.Encode` (`accepted` as a 0/1 byte). -/
def AckMessage.encode (m : AckMessage) : List Nat :=
  (if m.Accepted then 1 else 0) :: writeString m.Error

/-- Method `AckMessage.Decode` (`Accepted = accepted != 0`). -/
def AckMessage.decode (bs : List Nat) : Option (AckMessage × List Nat) :=
  (readBytes 1 bs).bind fun p1 =>
  (readString p1.2).bind fun p2 =>
  some (⟨decide (beVal p1.1 ≠ 0), p2.1⟩, p2.2)

/-- Struct `DataMessage{SeqNum uint32, Data []byte}`. -/
structure DataMessage where
  SeqNum : Nat
  Data : List Nat
  deriving DecidableEq

/-- Method `DataMessage.Encode` (`uint32(len(m.Data))` truncates modulo 2^32). -/
def DataMessage.encode (m : DataMessage) : List Nat :=
  u32Bytes m.SeqNum ++ u32Bytes m.Data.length ++ m.Data

/-- Method `DataMessage.Decode`. -/
def DataMessage.decode (bs : List Nat) : Option (DataMessage × List Nat) :=
  (readBytes 4 bs).bind fun p1 =>
  (readBytes 4 p1.2).bind fun p2 =>
  (readBytes (beVal p2.1) p2.2).bind fun p3 =>
  some (⟨beVal p1.1, p3.1⟩, p3.2)

/-- Struct `PingMessage{SeqNum uint32, Timestamp int64}`. -/
structure PingMessage where
  SeqNum : Nat
  Timestamp : Int
  deriving DecidableEq

/-- Method `PingMessage.Encode`. -/
def PingMessage.encode (m : PingMessage) : List Nat :=
  u32Bytes m.SeqNum ++ i64Bytes m.Timestamp

/-- Method `PingMessage.Decode`. -/
def PingMessage.decode (bs : List Nat) : Option (PingMessage × List Nat) :=
  (readBytes 4 bs).bind fun p1 =>
  (readBytes 8 p1.2).bind fun p2 =>
  some (⟨beVal p1.1, i64OfBytes p2.1⟩, p2.2)

/-- Struct `PongMessage{SeqNum uint32, PingTimestamp int64}`. -/
structure PongMessage where
  SeqNum : Nat
  PingTimestamp : Int
  deriving DecidableEq

/-- Method `PongMessage.Encode`. -/
def PongMessage.encode (m : PongMessage) : List Nat :=
  u32Bytes m.SeqNum ++ i64Bytes m.PingTimestamp

/-- Method `PongMessage.Decode`. -/
def PongMessage.decode (bs : List Nat) : Option (PongMessage × List Nat) :=
  (readBytes 4 bs).bind fun p1 =>
  (readBytes 8 p1.2).bind fun p2 =>
  some (⟨beVal p1.1, i64OfBytes p2.1⟩, p2.2)

/-- Struct `CompleteMessage{BytesTransferred int64, DurationNs int64}`. -/
structure CompleteMessage where
  BytesTransferred : Int
  DurationNs : Int
  deriving DecidableEq

/-- Method `CompleteMessage.Encode`. -/
def CompleteMessage.encode (m : CompleteMessage) : List Nat :=
  i64Bytes m.BytesTransferred ++ i64Bytes m.DurationNs

/-- Method `CompleteMessage.Decode`. -/
def CompleteMessage.decode (bs : List Nat) : Option (CompleteMessage × List Nat) :=
  (readBytes 8 bs).bind fun p1 =>
  (readBytes 8 p1.2).bind fun p2 =>
  some (⟨i64OfBytes p1.1, i64OfBytes p2.1⟩, p2.2)

/-- Struct `ErrorMessage{Error string}`. -/
structure ErrorMessage where
  Error : List Nat
  deriving DecidableEq

/-- Method `ErrorMessage.Encode`. -/
def ErrorMessage.encode (m : ErrorMessage) : List Nat :=
  writeString m.Error

/-- Method `ErrorMessage.Decode`. -/
def ErrorMessage.decode (bs : List Nat) : Option (ErrorMessage × List Nat) :=
  (readString bs).map fun p => (⟨p.1⟩, p.2)

/-- Model of `WriteMessage`: `type:u8 | length:u32 BE | payload`; the payload is the
message's own encoding, its length truncated by `uint32(len(buf))`. -/
def WriteMessage (msgType : Nat) (payload : List Nat) : List Nat :=
  msgType % 256 :: u32Bytes payload.length ++ payload

/-- Model of `ReadMessage`: read one type byte, a `u32 BE` length, then exactly that
many payload bytes.  The source performs no validation of the type byte
and no bound on the declared length. -/
def ReadMessage (bs : List Nat) : Option (Nat × List Nat × List Nat) :=
  (readBytes 1 bs).bind fun p1 =>
  (readBytes 4 p1.2).bind fun p2 =>
  (readBytes (beVal p2.1) p2.2).bind fun p3 =>
  some (beVal p1.1, p3.1, p3.2)

/-- Sum of the seven protocol message kinds, used to quantify over
"every benchmark protocol message" at once. -/
inductive Msg where
  | start (m : StartMessage)
  | ack (m : AckMessage)
  | data (m : DataMessage)
  | ping (m : PingMessage)
  | pong (m : PongMessage)
  | complete (m : CompleteMessage)
  | err (m : ErrorMessage)
  deriving DecidableEq

/-- The wire type byte of each message kind. -/
def Msg.msgType : Msg → Nat
  | .start _ => MsgStart
  | .ack _ => MsgAck
  | .data _ => MsgData
  | .ping _ => MsgPing
  | .pong _ => MsgPong
  | .complete _ => MsgComplete
  | .err _ => MsgError

/-- Dispatch to the message's own `Encode` method. -/
def Msg.encode : Msg → List Nat
  | .start m => m.encode
  | .ack m => m.encode
  | .data m => m.encode
  | .ping m => m.encode
  | .pong m => m.encode
  | .complete m => m.encode
  | .err m => m.encode

/-- Dispatch to the `Decode` method corresponding to a type byte. -/
def Msg.decodeAs (t : Nat) (bs : List Nat) : Option (Msg × List Nat) :=
  if t = MsgStart then (StartMessage.decode bs).map (fun p => (.start p.1, p.2))
  else if t = MsgAck then (AckMessage.decode bs).map (fun p => (.ack p.1, p.2))
  else if t = MsgData then (DataMessage.decode bs).map (fun p => (.data p.1, p.2))
  else if t = MsgPing then (PingMessage.decode bs).map (fun p => (.ping p.1, p.2))
  else if t = MsgPong then (PongMessage.decode bs).map (fun p => (.pong p.1, p.2))
  else if t = MsgComplete then (CompleteMessage.decode bs).map (fun p => (.complete p.1, p.2))
  else if t = MsgError then (ErrorMessage.decode bs).map (fun p => (.err p.1, p.2))
  else none

/-- Well-formedness of a message value as a value of its Go struct type:
every integer field fits the width of its Go machine type, and every
variable-length field is small enough that both its own length prefix
(`u16` for strings, `u32` for data) and the frame's `u32` length are not
truncated. -/
def Msg.wf : Msg → Prop
  | .start m => -2^63 ≤ m.Size ∧ m.Size < 2^63 ∧ m.Direction.length < 2^16
  | .ack m => m.Error.length < 2^16
  | .data m => m.SeqNum < 2^32 ∧ m.Data.length + 8 < 2^32
  | .ping m => m.SeqNum < 2^32 ∧ -2^63 ≤ m.Timestamp ∧ m.Timestamp < 2^63
  | .pong m => m.SeqNum < 2^32 ∧ -2^63 ≤ m.PingTimestamp ∧ m.PingTimestamp < 2^63
  | .complete m => -2^63 ≤ m.BytesTransferred ∧ m.BytesTransferred < 2^63 ∧
      -2^63 ≤ m.DurationNs ∧ m.DurationNs < 2^63
  | .err m => m.Error.length < 2^16

instance (m : Msg) : Decidable m.wf := by
  cases m <;> simp only [Msg.wf] <;> infer_instance

/-! ## Token bucket (unnamed benchmark source, `TokenBucket`)

`float64` token counts are `ℚ`; times are `Int` nanoseconds
(`time.Time`/`time.Duration`).  `time.Duration(f)` converts a `float64`
to `int64` nanoseconds truncating toward zero, which `ratTrunc` models. -/

/-- Go `time.Duration(f float64)`: truncation of a rational toward zero
(`Int.div` is T-division). -/
def ratTrunc (q : ℚ) : Int :=
  Int.tdiv q.num (q.den : Int)

/-- The `TokenBucket` state: rate and tokens in bytes/second (`float64`),
`lastUpdate` in nanoseconds. -/
structure TokenBucket where
  rate : ℚ
  tokens : ℚ
  maxTokens : ℚ
  lastUpdate : Int
  deriving DecidableEq

/-- Constructor `NewTokenBucket`: full bucket, capacity one second of tokens. -/
def NewTokenBucket (bytesPerSec : Int) (now : Int) : TokenBucket :=
  { rate := (bytesPerSec : ℚ)
    tokens := (bytesPerSec : ℚ)
    maxTokens := (bytesPerSec : ℚ)
    lastUpdate := now }

/-- Model of `TokenBucket.Take`: refill by elapsed seconds times rate, clamp to
`maxTokens`, then either pay `n` tokens (wait 0) or zero the bucket and
return the deficit time in nanoseconds. -/
def TokenBucket.take (tb : TokenBucket) (n : Nat) (now : Int) : Int × TokenBucket :=
  let elapsed : ℚ := ((now - tb.lastUpdate : Int) : ℚ) / 1000000000
  let tokens1 : ℚ := tb.tokens + elapsed * tb.rate
  let tokens2 : ℚ := if tokens1 > tb.maxTokens then tb.maxTokens else tokens1
  let needed : ℚ := (n : ℚ)
  if tokens2 ≥ needed then
    (0, { tb with tokens := tokens2 - needed, lastUpdate := now })
  else
    let deficit : ℚ := needed - tokens2
    let waitTime : Int := ratTrunc (deficit / tb.rate * 1000000000)
    (waitTime, { tb with tokens := 0, lastUpdate := now })

/-! ## Chaos configuration and writer (internal/benchmark) -/

/-- Struct `ChaosConfig`: loss percentage (`float64`), latency and jitter
(durations in nanoseconds), bandwidth in bytes/second. -/
structure ChaosConfig where
  PacketLossPercent : ℚ
  Latency : Int
  Jitter : Int
  BandwidthBps : Int
  deriving DecidableEq

/-- The `ChaosWriterStats` counters (`int64`). -/
structure ChaosWriterStats where
  TotalWrites : Int
  DroppedWrites : Int
  TotalBytes : Int
  ActualBytes : Int
  deriving DecidableEq

/-- The `ChaosWriter` state: configuration, optional token bucket, stats.
The underlying `io.Writer` and the `rand.Rand` stream are supplied per
call (`write`'s `underlying` result and random draws). -/
structure ChaosWriter where
  cfg : ChaosConfig
  bucket : Option TokenBucket
  stats : ChaosWriterStats
  deriving DecidableEq

/-- Constructor `NewChaosWriterWithRng`: attach a token bucket only when
`BandwidthBps > 0` (`now` is the creation time for the bucket). -/
def NewChaosWriterWithRng (cfg : ChaosConfig) (now : Int) : ChaosWriter :=
  { cfg := cfg
    bucket := if 0 < cfg.BandwidthBps then some (NewTokenBucket cfg.BandwidthBps now) else none
    stats := ⟨0, 0, 0, 0⟩ }

/-- Observable side effects of one `ChaosWriter.Write` call, in order:
a token-bucket pacing sleep, a latency/jitter sleep, or an underlying
write of the given bytes. -/
inductive WriteEvent where
  | bucketWait (d : Int)
  | sleep (d : Int)
  | write (p : List Nat)
  deriving DecidableEq

/-- Model of `ChaosWriter.Write`.  Here `draw` is the `rng.Float64()` result in `[0,1)`;
`jitterDraw` is the `rng.Int63n(2*jitter)` result; `underlying` is the
`(n, err)` the wrapped writer would return.  The returned event list is
the ordered trace of sleeps and underlying writes the call performs. -/
def ChaosWriter.write (c : ChaosWriter) (p : List Nat) (now : Int)
    (draw : ℚ) (jitterDraw : Int) (underlying : Int × Option String) :
    (Int × Option String) × ChaosWriter × List WriteEvent :=
  let c1 := { c with stats := { c.stats with
      TotalWrites := c.stats.TotalWrites + 1
      TotalBytes := c.stats.TotalBytes + p.length } }
  -- 1. packet loss: silently drop, pretending the write succeeded
  if 0 < c1.cfg.PacketLossPercent ∧ draw * 100 < c1.cfg.PacketLossPercent then
    (((p.length : Int), none),
     { c1 with stats := { c1.stats with DroppedWrites := c1.stats.DroppedWrites + 1 } },
     [])
  else
    -- 2. bandwidth limit: take tokens, sleeping on a positive wait
    let step2 : ChaosWriter × List WriteEvent :=
      match c1.bucket with
      | some tb =>
        let r := tb.take p.length now
        ({ c1 with bucket := some r.2 }, if 0 < r.1 then [.bucketWait r.1] else [])
      | none => (c1, [])
    let c2 := step2.1
    -- 3. latency + jitter sleep
    let sleepEvents : List WriteEvent :=
      if 0 < c2.cfg.Latency ∨ 0 < c2.cfg.Jitter then
        let delay : Int :=
          if 0 < c2.cfg.Jitter then
            let d := c2.cfg.Latency + (jitterDraw - c2.cfg.Jitter)
            if d < 0 then 0 else d
          else c2.cfg.Latency
        if 0 < delay then [.sleep delay] else []
      else []
    -- 4. underlying write
    let c3 := { c2 with stats := { c2.stats with
        ActualBytes := c2.stats.ActualBytes + underlying.1 } }
    (underlying, c3, step2.2 ++ sleepEvents ++ [.write p])

/-! ## Benchmark result (internal/benchmark/benchmark.go) -/

/-- The `Result` of a benchmark run; `float64` metrics are `ℚ`, the
timestamp is nanoseconds. -/
structure Result where
  ID : String
  Timestamp : Int
  LocalPeer : String
  RemotePeer : String
  Direction : String
  RequestedSize : Int
  TransferredSize : Int
  DurationMs : Int
  ThroughputBps : ℚ
  ThroughputMbps : ℚ
  LatencyMinMs : ℚ
  LatencyMaxMs : ℚ
  LatencyAvgMs : ℚ
  Success : Bool
  Error : String
  Chaos : Option ChaosConfig
  deriving DecidableEq

/-- Model of `Result.CalculateThroughput`: sets the two throughput fields from
`TransferredSize` and `DurationMs`, only when `DurationMs > 0`. -/
def Result.calculateThroughput (r : Result) : Result :=
  if 0 < r.DurationMs then
    let durationSec : ℚ := (r.DurationMs : ℚ) / 1000
    let bps : ℚ := (r.TransferredSize : ℚ) / durationSec
    { r with ThroughputBps := bps, ThroughputMbps := bps * 8 / 1000000 }
  else r

/-! ## Token authority (internal/coord/auth.go)

`GenerateToken` builds JWT claims and signs them with HMAC-SHA-256 over
the server secret.  The signature scheme itself lives in the external
`golang-jwt` library, so a token is modelled as its claim bundle
together with the secret it was signed with, and verification as
comparison of that secret.  Times are Unix seconds (`jwt.NumericDate`). -/

/-- Struct `JWTClaims`: custom claims plus the registered claims the source sets. -/
structure JWTClaims where
  PeerName : String
  MeshIP : String
  IssuedAt : Int
  ExpiresAt : Int
  Issuer : String
  deriving DecidableEq

/-- Constant `TokenExpiry = 24 * time.Hour`, in seconds. -/
def TokenExpiry : Int := 24 * 60 * 60

/-- A signed token: the claims and the secret whose HMAC signs them. -/
structure Token where
  claims : JWTClaims
  signedWith : String
  deriving DecidableEq

/-- Model of `GenerateToken`: claims with `iat = now`, `exp = now + TokenExpiry`,
issuer `"tunnelmesh"`, signed with the server secret. -/
def GenerateToken (secret : String) (peerName meshIP : String) (now : Int) : Token :=
  { claims := { PeerName := peerName, MeshIP := meshIP,
                IssuedAt := now, ExpiresAt := now + TokenExpiry,
                Issuer := "tunnelmesh" }
    signedWith := secret }

/-- Modelled from the spec: the JWT verification performed inside
`jwt.ParseWithClaims` of the external `golang-jwt` library is not part of
this repository; per the spec, "A token is valid iff signature verifies
and `now ≤ expires_at`".  `ValidateToken` returns the claims under
exactly those two conditions. -/
def ValidateToken (secret : String) (tok : Token) (now : Int) : Option JWTClaims :=
  if tok.signedWith = secret ∧ now ≤ tok.claims.ExpiresAt then some tok.claims
  else none

/-! ## Admin overview online flag (internal/coord/admin.go) -/

/-- Constant `onlineThreshold = 2 * time.Minute`, in nanoseconds. -/
def onlineThreshold : Int := 2 * 60 * 1000000000

/-- Computation `online := now.Sub(info.peer.LastSeen) < onlineThreshold`. -/
def peerOnline (now lastSeen : Int) : Bool :=
  decide (now - lastSeen < onlineThreshold)

/-! ## Peer route establishment (internal/peer/ssh.go, `ensurePeerRoute`)

The directory is modelled by the list of responses successive
`ListPeers` calls would produce (`none` = error, `some l` = peer list);
the mesh-IP cache by an optional cached IP for the queried name; the SSH
transport and `config.DecodePublicKey` by a presence flag and a
predicate on the key string. -/

/-- The fields of a directory peer entry that `ensurePeerRoute` uses. -/
structure DirPeer where
  Name : String
  MeshIP : String
  PublicKey : String
  deriving DecidableEq

/-- Outcome of one `ensurePeerRoute` call: how many `ListPeers` queries
ran, the backoff sleeps (milliseconds, in order), the returned mesh IP
(`""` = not found), whether the mesh IP was cached (`CachePeerMeshIP`),
whether an authorized key was installed, and whether the cache was
consulted (`GetCachedPeerMeshIP`). -/
structure RouteOutcome where
  queries : Nat
  sleeps : List Int
  meshIP : String
  cachedPut : Bool
  keyInstalled : Bool
  cacheConsulted : Bool
  deriving DecidableEq

/-- The retry loop of `ensurePeerRoute`: `remaining` attempts left
(starting at `maxRetries = 5`), current backoff in milliseconds
(starting at 500, doubling after each sleep; the sleep happens only when
`attempt < maxRetries`).  Returns the number of queries performed, the
sleeps, and the found peer (`none` when the loop ends by exhaustion or
by a response that does not list the peer). -/
def ensureLoop (peerName : String) :
    List (Option (List DirPeer)) → Nat → Int → Nat × List Int × Option DirPeer
  | _, 0, _ => (0, [], none)
  | responses, r + 1, backoff =>
    let resp := responses.headD none
    match resp with
    | none =>
      if r = 0 then (1, [], none)
      else
        let rec_ := ensureLoop peerName responses.tail r (backoff * 2)
        (rec_.1 + 1, backoff :: rec_.2.1, rec_.2.2)
    | some peers =>
      match peers.find? (fun p => p.Name = peerName) with
      | some p => (1, [], some p)
      | none => (1, [], none)

/-- Model of `ensurePeerRoute`: with no client, consult the cache directly.
Otherwise run the retry loop; on success cache the mesh IP and install
the peer's public key when it is nonempty, the SSH transport exists and
the key decodes; on failure (exhaustion or missing peer) consult the
cache. -/
def ensurePeerRoute (clientPresent : Bool) (responses : List (Option (List DirPeer)))
    (peerName : String) (cache : Option String)
    (sshPresent : Bool) (decodeOk : String → Bool) : RouteOutcome :=
  if clientPresent then
    let l := ensureLoop peerName responses 5 500
    match l.2.2 with
    | some p =>
      { queries := l.1, sleeps := l.2.1, meshIP := p.MeshIP,
        cachedPut := true,
        keyInstalled := decide (p.PublicKey ≠ "") && sshPresent && decodeOk p.PublicKey,
        cacheConsulted := false }
    | none =>
      { queries := l.1, sleeps := l.2.1,
        meshIP := cache.getD "",
        cachedPut := false, keyInstalled := false, cacheConsulted := true }
  else
    { queries := 0, sleeps := [], meshIP := cache.getD "",
      cachedPut := false, keyInstalled := false, cacheConsulted := true }

/-- The doubling backoff schedule: `n` sleeps starting at `b`
milliseconds (`backoffs 4 500 = [500, 1000, 2000, 4000]`). -/
def backoffs : Nat → Int → List Int
  | 0, _ => []
  | n + 1, b => b :: backoffs n (b * 2)

/-- Definition of the declared payload length of a frame: the big-endian value of
bytes 1–4. -/
def declaredLen (bs : List Nat) : Nat :=
  beVal ((bs.drop 1).take 4)

/-- Run a sequence of `Take` calls, collecting the returned waits. -/
def runBucket (tb : TokenBucket) : List (Nat × Int) → TokenBucket × List Int
  | [] => (tb, [])
  | c :: rest =>
    let r := tb.take c.1 c.2
    let r2 := runBucket r.2 rest
    (r2.1, r.1 :: r2.2)

/-- Call times are non-decreasing and start no earlier than the given
instant (Go's monotonic `time.Now` guarantees this). -/
def Chrono : Int → List (Nat × Int) → Prop
  | _, [] => True
  | t0, c :: rest => t0 ≤ c.2 ∧ Chrono c.2 rest

/-! ## Codec lemmas -/

theorem length_u16Bytes (v : Nat) : (u16Bytes v).length = 2 := rfl

theorem length_u32Bytes (v : Nat) : (u32Bytes v).length = 4 := rfl

theorem length_i64Bytes (v : Int) : (i64Bytes v).length = 8 := rfl

theorem beVal_singleton (c : Nat) : beVal [c] = c := by
  simp [beVal]

theorem beVal_u16Bytes (v : Nat) : beVal (u16Bytes v) = v % 65536 := by
  simp only [beVal, u16Bytes, List.foldl_cons, List.foldl_nil]
  omega

theorem beVal_u32Bytes (v : Nat) : beVal (u32Bytes v) = v % 4294967296 := by
  simp only [beVal, u32Bytes, List.foldl_cons, List.foldl_nil]
  omega

theorem beVal_u64Bytes (v : Nat) : beVal (u64Bytes v) = v % 18446744073709551616 := by
  simp only [beVal, u64Bytes, List.foldl_cons, List.foldl_nil]
  omega

theorem i64OfBytes_i64Bytes (v : Int)
    (h1 : -9223372036854775808 ≤ v) (h2 : v < 9223372036854775808) :
    i64OfBytes (i64Bytes v) = v := by
  unfold i64OfBytes i64Bytes
  rw [beVal_u64Bytes]
  have h3 : 0 ≤ v % 18446744073709551616 := Int.emod_nonneg _ (by norm_num)
  have h4 : v % 18446744073709551616 < 18446744073709551616 :=
    Int.emod_lt_of_pos _ (by norm_num)
  have hq : v % 18446744073709551616 = v ∨
      v % 18446744073709551616 = v + 18446744073709551616 := by
    have h5 := Int.emod_add_ediv v 18446744073709551616
    omega
  obtain he | he := hq <;> rw [he] <;> split <;> omega

/-- Reading exactly the length of a known front segment returns that
segment and the remainder. -/
theorem readBytes_prepend (l r : List Nat) {n : Nat} (h : l.length = n) :
    readBytes n (l ++ r) = some (l, r) := by
  subst h
  unfold readBytes
  rw [List.length_append, if_pos (Nat.le_add_right _ _), List.take_left, List.drop_left]

/-- Reading the whole remaining stream. -/
theorem readBytes_self (l : List Nat) : readBytes l.length l = some (l, []) := by
  have := readBytes_prepend l [] rfl
  rwa [List.append_nil] at this

theorem readString_writeString (s rest : List Nat) (h : s.length < 65536) :
    readString (writeString s ++ rest) = some (s, rest) := by
  unfold readString writeString
  rw [List.append_assoc, readBytes_prepend _ _ (length_u16Bytes _), Option.some_bind,
    beVal_u16Bytes, Nat.mod_eq_of_lt h]
  by_cases h0 : s.length = 0
  · rw [if_pos h0]
    have hs : s = [] := List.length_eq_zero.mp h0
    subst hs
    simp
  · rw [if_neg h0, readBytes_prepend _ _ rfl]

theorem startMessage_decode_encode (m : StartMessage) (rest : List Nat)
    (h1 : -9223372036854775808 ≤ m.Size) (h2 : m.Size < 9223372036854775808)
    (hd : m.Direction.length < 65536) :
    StartMessage.decode (m.encode ++ rest) = some (m, rest) := by
  unfold StartMessage.decode StartMessage.encode
  rw [List.append_assoc, readBytes_prepend _ _ (length_i64Bytes _), Option.some_bind]
  dsimp only
  rw [readString_writeString _ _ hd, Option.some_bind]
  dsimp only
  rw [i64OfBytes_i64Bytes _ h1 h2]

theorem ackMessage_decode_encode (m : AckMessage) (rest : List Nat)
    (he : m.Error.length < 65536) :
    AckMessage.decode (m.encode ++ rest) = some (m, rest) := by
  obtain ⟨acc, err⟩ := m
  unfold AckMessage.decode AckMessage.encode
  rw [show ((if acc then 1 else 0) :: writeString err) ++ rest
      = [if acc then 1 else 0] ++ (writeString err ++ rest) by simp,
    readBytes_prepend _ _ (show (List.length [if acc then (1:ℕ) else 0]) = 1
      from rfl),
    Option.some_bind]
  dsimp only
  rw [readString_writeString _ _ he, Option.some_bind]
  dsimp only
  rw [beVal_singleton]
  cases acc <;> simp

theorem dataMessage_decode_encode (m : DataMessage) (rest : List Nat)
    (hs : m.SeqNum < 4294967296) (hd : m.Data.length < 4294967296) :
    DataMessage.decode (m.encode ++ rest) = some (m, rest) := by
  unfold DataMessage.decode DataMessage.encode
  rw [List.append_assoc, List.append_assoc, readBytes_prepend _ _ (length_u32Bytes _),
    Option.some_bind]
  dsimp only
  rw [readBytes_prepend _ _ (length_u32Bytes _), Option.some_bind]
  dsimp only
  rw [beVal_u32Bytes, beVal_u32Bytes, Nat.mod_eq_of_lt hs, Nat.mod_eq_of_lt hd,
    readBytes_prepend _ _ rfl, Option.some_bind]

theorem pingMessage_decode_encode (m : PingMessage) (rest : List Nat)
    (hs : m.SeqNum < 4294967296)
    (h1 : -9223372036854775808 ≤ m.Timestamp) (h2 : m.Timestamp < 9223372036854775808) :
    PingMessage.decode (m.encode ++ rest) = some (m, rest) := by
  unfold PingMessage.decode PingMessage.encode
  rw [List.append_assoc, readBytes_prepend _ _ (length_u32Bytes _), Option.some_bind]
  dsimp only
  rw [readBytes_prepend _ _ (length_i64Bytes _), Option.some_bind]
  dsimp only
  rw [beVal_u32Bytes, Nat.mod_eq_of_lt hs, i64OfBytes_i64Bytes _ h1 h2]

theorem pongMessage_decode_encode (m : PongMessage) (rest : List Nat)
    (hs : m.SeqNum < 4294967296)
    (h1 : -9223372036854775808 ≤ m.PingTimestamp)
    (h2 : m.PingTimestamp < 9223372036854775808) :
    PongMessage.decode (m.encode ++ rest) = some (m, rest) := by
  unfold PongMessage.decode PongMessage.encode
  rw [List.append_assoc, readBytes_prepend _ _ (length_u32Bytes _), Option.some_bind]
  dsimp only
  rw [readBytes_prepend _ _ (length_i64Bytes _), Option.some_bind]
  dsimp only
  rw [beVal_u32Bytes, Nat.mod_eq_of_lt hs, i64OfBytes_i64Bytes _ h1 h2]

theorem completeMessage_decode_encode (m : CompleteMessage) (rest : List Nat)
    (h1 : -9223372036854775808 ≤ m.BytesTransferred)
    (h2 : m.BytesTransferred < 9223372036854775808)
    (h3 : -9223372036854775808 ≤ m.DurationNs) (h4 : m.DurationNs < 9223372036854775808) :
    CompleteMessage.decode (m.encode ++ rest) = some (m, rest) := by
  unfold CompleteMessage.decode CompleteMessage.encode
  rw [List.append_assoc, readBytes_prepend _ _ (length_i64Bytes _), Option.some_bind]
  dsimp only
  rw [readBytes_prepend _ _ (length_i64Bytes _), Option.some_bind]
  dsimp only
  rw [i64OfBytes_i64Bytes _ h1 h2, i64OfBytes_i64Bytes _ h3 h4]

theorem errorMessage_decode_encode (m : ErrorMessage) (rest : List Nat)
    (he : m.Error.length < 65536) :
    ErrorMessage.decode (m.encode ++ rest) = some (m, rest) := by
  unfold ErrorMessage.decode ErrorMessage.encode
  rw [readString_writeString _ _ he]
  rfl

/-- Lemma: `ReadMessage` inverts `WriteMessage` whenever the type fits a byte
and the payload length fits the `u32` length field. -/
theorem ReadMessage_WriteMessage (t : Nat) (p : List Nat)
    (ht : t < 256) (hp : p.length < 4294967296) :
    ReadMessage (WriteMessage t p) = some (t, p, []) := by
  unfold ReadMessage WriteMessage
  rw [show (t % 256 :: u32Bytes p.length ++ p) = [t % 256] ++ (u32Bytes p.length ++ p)
      from rfl,
    readBytes_prepend _ _ (show (List.length [t % 256]) = 1 from rfl), Option.some_bind]
  dsimp only
  rw [readBytes_prepend _ _ (length_u32Bytes _), Option.some_bind]
  dsimp only
  rw [beVal_u32Bytes, Nat.mod_eq_of_lt hp, readBytes_self, Option.some_bind]
  dsimp only
  rw [beVal_singleton, Nat.mod_eq_of_lt ht]

/-- The per-kind decode inverts the per-kind encode for well-formed
messages. -/
theorem Msg.decodeAs_encode (m : Msg) (hm : m.wf) :
    Msg.decodeAs m.msgType m.encode = some (m, []) := by
  cases m with
  | start s =>
    obtain ⟨h1, h2, h3⟩ := hm
    have := startMessage_decode_encode s [] h1 h2 h3
    rw [List.append_nil] at this
    simp [Msg.decodeAs, Msg.msgType, Msg.encode, MsgStart, this]
  | ack a =>
    have := ackMessage_decode_encode a [] hm
    rw [List.append_nil] at this
    simp [Msg.decodeAs, Msg.msgType, Msg.encode, MsgAck, MsgStart, this]
  | data d =>
    obtain ⟨h1, h2⟩ := hm
    have := dataMessage_decode_encode d [] h1 (by omega)
    rw [List.append_nil] at this
    simp [Msg.decodeAs, Msg.msgType, Msg.encode, MsgData, MsgStart, MsgAck, this]
  | ping g =>
    obtain ⟨h1, h2, h3⟩ := hm
    have := pingMessage_decode_encode g [] h1 h2 h3
    rw [List.append_nil] at this
    simp [Msg.decodeAs, Msg.msgType, Msg.encode, MsgPing, MsgStart, MsgAck, MsgData, this]
  | pong g =>
    obtain ⟨h1, h2, h3⟩ := hm
    have := pongMessage_decode_encode g [] h1 h2 h3
    rw [List.append_nil] at this
    simp [Msg.decodeAs, Msg.msgType, Msg.encode, MsgPong, MsgStart, MsgAck, MsgData,
      MsgPing, this]
  | complete c =>
    obtain ⟨h1, h2, h3, h4⟩ := hm
    have := completeMessage_decode_encode c [] h1 h2 h3 h4
    rw [List.append_nil] at this
    simp [Msg.decodeAs, Msg.msgType, Msg.encode, MsgComplete, MsgStart, MsgAck, MsgData,
      MsgPing, MsgPong, this]
  | err e =>
    have := errorMessage_decode_encode e [] hm
    rw [List.append_nil] at this
    simp [Msg.decodeAs, Msg.msgType, Msg.encode, MsgError, MsgStart, MsgAck, MsgData,
      MsgPing, MsgPong, MsgComplete, this]

theorem Msg.encode_length_lt (m : Msg) (hm : m.wf) : m.encode.length < 4294967296 := by
  cases m <;>
    simp only [Msg.encode, Msg.wf, StartMessage.encode, AckMessage.encode,
      DataMessage.encode, PingMessage.encode, PongMessage.encode, CompleteMessage.encode,
      ErrorMessage.encode, writeString, List.length_append, List.length_cons,
      length_i64Bytes, length_u16Bytes, length_u32Bytes] at * <;> omega

theorem Msg.msgType_lt (m : Msg) : m.msgType < 256 := by
  cases m <;> simp [Msg.msgType, MsgStart, MsgAck, MsgData, MsgPing, MsgPong,
    MsgComplete, MsgError]

/-! ## Claim C1 -/

/-- C1 (amended): for every well-formed benchmark protocol message
(its variable-length fields small enough that the `u16`/`u32` length
prefixes are not truncated), decoding the `Encode` output with the
corresponding `Decode` method recovers the original message, and
`WriteMessage` followed by `ReadMessage` recovers the message type and
the encoded payload (from which `Decode` recovers the message, by the
first conjunct). -/
theorem encode_decode_roundtrip (m : Msg) (hm : m.wf) :
    Msg.decodeAs m.msgType m.encode = some (m, []) ∧
    ReadMessage (WriteMessage m.msgType m.encode) = some (m.msgType, m.encode, []) :=
  ⟨Msg.decodeAs_encode m hm,
   ReadMessage_WriteMessage _ _ (Msg.msgType_lt m) (Msg.encode_length_lt m hm)⟩

/-- Witness: the round trip at a concrete `Start{Size: 1024,
Direction: "upload"}` message. -/
theorem encode_decode_roundtrip_witness :
    (Msg.start ⟨1024, [117, 112, 108, 111, 97, 100]⟩).wf ∧
    (Msg.decodeAs (Msg.start ⟨1024, [117, 112, 108, 111, 97, 100]⟩).msgType
        (Msg.start ⟨1024, [117, 112, 108, 111, 97, 100]⟩).encode
      = some (Msg.start ⟨1024, [117, 112, 108, 111, 97, 100]⟩, []) ∧
     ReadMessage (WriteMessage (Msg.start ⟨1024, [117, 112, 108, 111, 97, 100]⟩).msgType
        (Msg.start ⟨1024, [117, 112, 108, 111, 97, 100]⟩).encode)
      = some ((Msg.start ⟨1024, [117, 112, 108, 111, 97, 100]⟩).msgType,
          (Msg.start ⟨1024, [117, 112, 108, 111, 97, 100]⟩).encode, [])) :=
  ⟨by decide, encode_decode_roundtrip (Msg.start ⟨1024, [117, 112, 108, 111, 97, 100]⟩)
    (by decide)⟩

/-- C1 fails as literally stated: a `StartMessage` whose direction
string has 65536 bytes encodes with a truncated `uint16` length field of
0, so decoding its encoding yields the empty direction, not the
original. -/
theorem start_roundtrip_counterexample :
    (StartMessage.decode (StartMessage.encode ⟨0, List.replicate 65536 97⟩)).map Prod.fst
      ≠ some ⟨0, List.replicate 65536 97⟩ := by
  have h : StartMessage.decode (StartMessage.encode ⟨0, List.replicate 65536 97⟩)
      = some (⟨0, []⟩, List.replicate 65536 97) := by
    unfold StartMessage.decode StartMessage.encode writeString
    rw [readBytes_prepend _ _ (length_i64Bytes _), Option.some_bind]
    dsimp only
    unfold readString
    rw [readBytes_prepend _ _ (length_u16Bytes _), Option.some_bind]
    dsimp only
    rw [beVal_u16Bytes, List.length_replicate]
    norm_num
    rw [i64OfBytes_i64Bytes 0 (by norm_num) (by norm_num)]
  rw [h]
  intro hc
  rw [Option.map_some'] at hc
  have h2 : ([] : List Nat) = List.replicate 65536 97 := congrArg StartMessage.Direction
    (Option.some.inj hc)
  have h3 := congrArg List.length h2
  simp only [List.length_replicate, List.length_nil] at h3
  exact absurd h3 (by norm_num)

/-! ## Claim C2 -/

/-- C2 (amended): `ReadMessage` fails exactly on truncated input (fewer
than `5 + declared payload length` bytes); on success the type byte is
returned as-is — unknown message types are not rejected; and no bound is
placed on the declared length; `StartMessage.Decode` likewise accepts
any direction string that fits its length prefix, without checking it
against "upload"/"download". -/
theorem readMessage_error_conditions :
    (∀ bs : List Nat, ReadMessage bs = none ↔ bs.length < 5 + declaredLen bs) ∧
    (∀ bs : List Nat, ∀ t : Nat, ∀ p r : List Nat,
      ReadMessage bs = some (t, p, r) → t = beVal (bs.take 1)) ∧
    (∀ m : StartMessage, -9223372036854775808 ≤ m.Size → m.Size < 9223372036854775808 →
      m.Direction.length < 65536 → StartMessage.decode m.encode = some (m, [])) := by
  refine ⟨?_, ?_, ?_⟩
  · intro bs
    unfold ReadMessage readBytes declaredLen
    by_cases h1 : 1 ≤ bs.length
    · rw [if_pos h1, Option.some_bind]
      dsimp only
      by_cases h2 : 4 ≤ (bs.drop 1).length
      · rw [if_pos h2, Option.some_bind]
        dsimp only
        rw [List.drop_drop]
        have hl4 : (bs.drop 1).length = bs.length - 1 := List.length_drop _ _
        have hl5 : (bs.drop (4 + 1)).length = bs.length - 5 := List.length_drop _ _
        by_cases h3 : beVal ((bs.drop 1).take 4) ≤ (bs.drop (4 + 1)).length
        · rw [if_pos h3, Option.some_bind]
          simp only [reduceCtorEq, false_iff, not_lt]
          omega
        · rw [if_neg h3]
          simp only [Option.none_bind]
          exact iff_of_true trivial (by omega)
      · rw [if_neg h2]
        have hl4 : (bs.drop 1).length = bs.length - 1 := List.length_drop _ _
        simp only [Option.none_bind]
        exact iff_of_true trivial (by omega)
    · rw [if_neg h1]
      simp only [Option.none_bind]
      exact iff_of_true trivial (by omega)
  · intro bs t p r h
    unfold ReadMessage readBytes at h
    by_cases h1 : 1 ≤ bs.length
    · rw [if_pos h1, Option.some_bind] at h
      dsimp only at h
      by_cases h2 : 4 ≤ (bs.drop 1).length
      · rw [if_pos h2, Option.some_bind] at h
        dsimp only at h
        by_cases h3 : beVal ((bs.drop 1).take 4) ≤ ((bs.drop 1).drop 4).length
        · rw [if_pos h3, Option.some_bind] at h
          exact (Prod.mk.inj (Option.some.inj h)).1.symm
        · rw [if_neg h3] at h
          exact absurd h (by simp)
      · rw [if_neg h2] at h
        exact absurd h (by simp)
    · rw [if_neg h1] at h
      exact absurd h (by simp)
  · intro m h1 h2 h3
    have := startMessage_decode_encode m [] h1 h2 h3
    rwa [List.append_nil] at this

/-- Witness: a frame truncated after 3 bytes fails; a successful read
returns the raw type byte; a `Start` with direction `"sideways"` decodes
without any direction check. -/
theorem readMessage_error_conditions_witness :
    (ReadMessage [48, 0, 0] = none ↔ ([48, 0, 0] : List Nat).length < 5 + declaredLen [48, 0, 0]) ∧
    ((99 : Nat) = beVal (([99, 0, 0, 0, 0] : List Nat).take 1)) ∧
    StartMessage.decode (StartMessage.encode ⟨1, [115, 105, 100, 101]⟩)
      = some (⟨1, [115, 105, 100, 101]⟩, []) :=
  ⟨readMessage_error_conditions.1 [48, 0, 0],
   readMessage_error_conditions.2.1 [99, 0, 0, 0, 0] 99 [] [] (by decide),
   readMessage_error_conditions.2.2 ⟨1, [115, 105, 100, 101]⟩ (by decide) (by decide)
     (by decide)⟩

/-- C2 fails as literally stated: a frame with the unknown type byte
0x99 and declared length 0 is read successfully — no protocol error is
raised for unknown message types. -/
theorem readMessage_unknown_type_counterexample :
    ReadMessage [153, 0, 0, 0, 0] = some (153, [], []) ∧ 153 ∉ knownTypes := by
  decide

/-! ## Claim C3 -/

/-- C3 (amended): a token issued at `iat` validates (returning the
original claims) at every `now ≤ iat + 24h`, and fails at every
`now > iat + 24h`; times before `iat` are not rejected, since only the
signature and the expiry are checked. -/
theorem validateToken_window (secret pn ip : String) (iat now : Int) :
    (now ≤ iat + TokenExpiry →
      ValidateToken secret (GenerateToken secret pn ip iat) now
        = some ⟨pn, ip, iat, iat + TokenExpiry, "tunnelmesh"⟩) ∧
    (iat + TokenExpiry < now →
      ValidateToken secret (GenerateToken secret pn ip iat) now = none) := by
  refine ⟨fun h => ?_, fun h => ?_⟩
  · unfold ValidateToken GenerateToken
    rw [if_pos ⟨rfl, h⟩]
  · unfold ValidateToken GenerateToken
    rw [if_neg]
    intro hc
    exact absurd hc.2 (not_le.mpr h)

/-- Witness: a token issued at time 0 validates at time 100 with the
original claims, and fails at time `TokenExpiry + 1`. -/
theorem validateToken_window_witness :
    ((100 : Int) ≤ 0 + TokenExpiry ∧
      ValidateToken "s" (GenerateToken "s" "alice" "10.99.0.1" 0) 100
        = some ⟨"alice", "10.99.0.1", 0, 0 + TokenExpiry, "tunnelmesh"⟩) ∧
    ((0 : Int) + TokenExpiry < 86401 ∧
      ValidateToken "s" (GenerateToken "s" "alice" "10.99.0.1" 0) 86401 = none) :=
  ⟨⟨by decide, (validateToken_window "s" "alice" "10.99.0.1" 0 100).1 (by decide)⟩,
   ⟨by decide, (validateToken_window "s" "alice" "10.99.0.1" 0 86401).2 (by decide)⟩⟩

/-- C3 fails as literally stated: a token issued at time 1000 still
validates at time 0, before its issue time, because the issued-at claim
is never checked. -/
theorem validateToken_before_iat_counterexample :
    ValidateToken "s" (GenerateToken "s" "alice" "10.99.0.1" 1000) 0
      = some ⟨"alice", "10.99.0.1", 1000, 1000 + TokenExpiry, "tunnelmesh"⟩ ∧
    (0 : Int) < 1000 := by
  constructor
  · decide
  · decide

/-! ## Claim C7 -/

/-- C7: a peer is reported online exactly when `now − last_seen` is
strictly below two minutes; the flag depends only on those two times. -/
theorem online_iff (now lastSeen : Int) :
    peerOnline now lastSeen = true ↔ now - lastSeen < 2 * 60 * 1000000000 := by
  simp [peerOnline, onlineThreshold]

/-! ## Claim C9 -/

/-- C9: `CalculateThroughput` is the identity whenever `DurationMs ≤ 0`
(no division happens), and in every case it changes no field other than
`ThroughputBps` and `ThroughputMbps`. -/
theorem calculateThroughput_safe :
    (∀ r : Result, r.DurationMs ≤ 0 → r.calculateThroughput = r) ∧
    (∀ r : Result,
      r.calculateThroughput.ID = r.ID ∧
      r.calculateThroughput.Timestamp = r.Timestamp ∧
      r.calculateThroughput.LocalPeer = r.LocalPeer ∧
      r.calculateThroughput.RemotePeer = r.RemotePeer ∧
      r.calculateThroughput.Direction = r.Direction ∧
      r.calculateThroughput.RequestedSize = r.RequestedSize ∧
      r.calculateThroughput.TransferredSize = r.TransferredSize ∧
      r.calculateThroughput.DurationMs = r.DurationMs ∧
      r.calculateThroughput.LatencyMinMs = r.LatencyMinMs ∧
      r.calculateThroughput.LatencyMaxMs = r.LatencyMaxMs ∧
      r.calculateThroughput.LatencyAvgMs = r.LatencyAvgMs ∧
      r.calculateThroughput.Success = r.Success ∧
      r.calculateThroughput.Error = r.Error ∧
      r.calculateThroughput.Chaos = r.Chaos) := by
  constructor
  · intro r h
    unfold Result.calculateThroughput
    rw [if_neg (by omega)]
  · intro r
    unfold Result.calculateThroughput
    split <;> exact ⟨rfl, rfl, rfl, rfl, rfl, rfl, rfl, rfl, rfl, rfl, rfl, rfl, rfl, rfl⟩

/-- Witness: `CalculateThroughput` at a concrete zero-duration result. -/
theorem calculateThroughput_safe_witness :
    (0 : Int) ≤ 0 ∧
    Result.calculateThroughput
        ⟨"id", 0, "a", "b", "upload", 1024, 1024, 0, 0, 0, 0, 0, 0, true, "", none⟩
      = ⟨"id", 0, "a", "b", "upload", 1024, 1024, 0, 0, 0, 0, 0, 0, true, "", none⟩ :=
  ⟨by decide,
   calculateThroughput_safe.1
     ⟨"id", 0, "a", "b", "upload", 1024, 1024, 0, 0, 0, 0, 0, 0, true, "", none⟩
     (by decide)⟩

/-! ## Claim C10 -/

/-- C10: a `ChaosWriter` over an all-zero `ChaosConfig` is
write-equivalent to the underlying writer: each call performs exactly
one underlying write of `p` and nothing else (no bucket wait, no sleep),
and returns the underlying `(n, err)` unchanged. -/
theorem chaosWriter_zero_config_transparent (t0 now : Int) (p : List Nat) (draw : ℚ)
    (jitterDraw : Int) (u : Int × Option String) :
    ((NewChaosWriterWithRng ⟨0, 0, 0, 0⟩ t0).write p now draw jitterDraw u).1 = u ∧
    ((NewChaosWriterWithRng ⟨0, 0, 0, 0⟩ t0).write p now draw jitterDraw u).2.2
      = [WriteEvent.write p] := by
  unfold NewChaosWriterWithRng ChaosWriter.write
  norm_num

/-! ## Claim C4 -/

/-- A `Take` that returns a positive wait leaves an empty bucket with
`lastUpdate` at the call time. -/
theorem TokenBucket.take_pos_wait (tb : TokenBucket) (n : Nat) (t : Int)
    (h : 0 < (tb.take n t).1) :
    (tb.take n t).2 = { tb with tokens := 0, lastUpdate := t } := by
  unfold TokenBucket.take at h ⊢
  dsimp only at h ⊢
  split_ifs at h ⊢ with hc <;> first | rfl | simp at h

/-- C4 (amended): if `Take n` returns a wait `w > 0` and the caller
sleeps exactly `w`, a subsequent `Take m` returns no wait provided
`m ≤ rate · w` *and* `m` does not exceed the bucket capacity
(`maxTokens = rate`, one second of burst) — the refill is clamped to the
capacity, so waits longer than one second do not accumulate credit. -/
theorem tokenBucket_take_after_wait (tb : TokenBucket) (n m : Nat) (t1 : Int)
    (hmax : tb.maxTokens = tb.rate)
    (hw : 0 < (tb.take n t1).1)
    (hm1 : (m : ℚ) ≤ tb.rate * ((((tb.take n t1).1 : Int) : ℚ) / 1000000000))
    (hm2 : (m : ℚ) ≤ tb.rate) :
    ((tb.take n t1).2.take m (t1 + (tb.take n t1).1)).1 = 0 := by
  have h2 := TokenBucket.take_pos_wait tb n t1 hw
  set w := (tb.take n t1).1 with hwdef
  rw [h2]
  unfold TokenBucket.take
  dsimp only
  have ht : ((t1 + w - t1 : Int) : ℚ) = ((w : Int) : ℚ) := by push_cast; ring
  rw [ht]
  by_cases hclamp : (0 : ℚ) + ((w : Int) : ℚ) / 1000000000 * tb.rate > tb.maxTokens
  · rw [if_pos hclamp, if_pos (by rw [hmax]; exact hm2)]
  · rw [if_neg hclamp, if_pos (by rw [zero_add, mul_comm]; exact hm1)]

/-- Concrete evaluation: a fresh rate-1 bucket waits 2 s on `Take 3`. -/
theorem newBucket_take_eval1 :
    (NewTokenBucket 1 0).take 3 0 = (2000000000, ⟨1, 0, 1, 0⟩) := by
  unfold NewTokenBucket TokenBucket.take ratTrunc
  norm_num [Rat.num_ofNat, Rat.den_ofNat]

/-- Concrete evaluation: the emptied bucket, after a 2 s sleep, serves
`Take 1` immediately (refill clamped to capacity 1). -/
theorem newBucket_take_eval2 :
    (TokenBucket.mk 1 0 1 0).take 1 2000000000 = (0, ⟨1, 0, 1, 2000000000⟩) := by
  unfold TokenBucket.take ratTrunc
  norm_num [Rat.num_ofNat, Rat.den_ofNat]

/-- Concrete evaluation: the emptied bucket, after a 2 s sleep, still
waits 1 s on `Take 2` (refill clamped to capacity 1). -/
theorem newBucket_take_eval3 :
    (TokenBucket.mk 1 0 1 0).take 2 2000000000 = (1000000000, ⟨1, 0, 1, 2000000000⟩) := by
  unfold TokenBucket.take ratTrunc
  norm_num [Rat.num_ofNat, Rat.den_ofNat]

theorem newBucket_rate_cast_eval :
    ((1 : ℚ) ≤ (NewTokenBucket 1 0).rate *
      (((((NewTokenBucket 1 0).take 3 0).1 : Int) : ℚ) / 1000000000)) := by
  rw [newBucket_take_eval1]
  unfold NewTokenBucket
  norm_num

/-- Witness: rate-1 bucket, `Take 3` waits 2 s; after sleeping 2 s,
`Take 1` (1 ≤ rate·2 s and 1 ≤ capacity) returns 0. -/
theorem tokenBucket_take_after_wait_witness :
    ((NewTokenBucket 1 0).maxTokens = (NewTokenBucket 1 0).rate ∧
     0 < ((NewTokenBucket 1 0).take 3 0).1 ∧
     ((1 : ℚ) ≤ (NewTokenBucket 1 0).rate *
        (((((NewTokenBucket 1 0).take 3 0).1 : Int) : ℚ) / 1000000000)) ∧
     ((1 : ℚ) ≤ (NewTokenBucket 1 0).rate)) ∧
    (((NewTokenBucket 1 0).take 3 0).2.take 1 (0 + ((NewTokenBucket 1 0).take 3 0).1)).1
      = 0 :=
  ⟨⟨rfl, by simp [newBucket_take_eval1], newBucket_rate_cast_eval,
    by simp [NewTokenBucket]⟩,
   tokenBucket_take_after_wait (NewTokenBucket 1 0) 3 1 0 rfl
     (by simp [newBucket_take_eval1]) newBucket_rate_cast_eval
     (by simp [NewTokenBucket])⟩

/-- C4 fails as literally stated: a rate-1 bucket returns a 2 s wait for
`Take 3`; after sleeping exactly those 2 s, `Take 2` satisfies
`2 ≤ rate · wait` yet still returns a 1 s wait, because the refill was
clamped to the one-second capacity. -/
theorem tokenBucket_take_after_wait_counterexample :
    (((NewTokenBucket 1 0).take 3 0).1 = 2000000000) ∧
    ((2 : ℚ) ≤ 1 * ((2000000000 : ℚ) / 1000000000)) ∧
    ((((NewTokenBucket 1 0).take 3 0).2.take 2 2000000000).1 = 1000000000) := by
  refine ⟨?_, by norm_num, ?_⟩
  · rw [newBucket_take_eval1]
  · rw [newBucket_take_eval1, newBucket_take_eval3]

/-! ## Claim C8 -/

theorem ratTrunc_nonneg (q : ℚ) (h : 0 ≤ q) : 0 ≤ ratTrunc q := by
  unfold ratTrunc
  apply Int.tdiv_nonneg
  · exact Rat.num_nonneg.mpr h
  · exact_mod_cast Nat.zero_le q.den

/-- One `Take` preserves the bucket invariant and returns a
non-negative wait. -/
theorem TokenBucket.take_step (tb : TokenBucket) (n : Nat) (now : Int)
    (hrate : 0 < tb.rate) (h0 : 0 ≤ tb.tokens) (h1 : tb.tokens ≤ tb.maxTokens)
    (ht : tb.lastUpdate ≤ now) :
    0 ≤ (tb.take n now).1 ∧
    0 ≤ (tb.take n now).2.tokens ∧ (tb.take n now).2.tokens ≤ tb.maxTokens ∧
    (tb.take n now).2.maxTokens = tb.maxTokens ∧ (tb.take n now).2.rate = tb.rate ∧
    (tb.take n now).2.lastUpdate = now := by
  unfold TokenBucket.take
  dsimp only
  have helapsed : (0 : ℚ) ≤ ((now - tb.lastUpdate : Int) : ℚ) / 1000000000 := by
    apply div_nonneg _ (by norm_num)
    exact_mod_cast sub_nonneg.mpr ht
  have hrefill : (0 : ℚ) ≤ ((now - tb.lastUpdate : Int) : ℚ) / 1000000000 * tb.rate :=
    mul_nonneg helapsed (le_of_lt hrate)
  by_cases hclamp : tb.tokens + ((now - tb.lastUpdate : Int) : ℚ) / 1000000000 * tb.rate
      > tb.maxTokens
  · rw [if_pos hclamp]
    by_cases havail : tb.maxTokens ≥ (n : ℚ)
    · rw [if_pos havail]
      dsimp only
      refine ⟨le_refl 0, by linarith [havail], by linarith [Nat.cast_nonneg (α := ℚ) n],
        rfl, rfl, rfl⟩
    · rw [if_neg havail]
      dsimp only
      refine ⟨ratTrunc_nonneg _ ?_, le_refl 0, by linarith, rfl, rfl, rfl⟩
      apply mul_nonneg _ (by norm_num)
      apply div_nonneg _ (le_of_lt hrate)
      linarith [not_le.mp havail]
  · rw [if_neg hclamp]
    by_cases havail : tb.tokens + ((now - tb.lastUpdate : Int) : ℚ) / 1000000000 * tb.rate
        ≥ (n : ℚ)
    · rw [if_pos havail]
      dsimp only
      refine ⟨le_refl 0, by linarith [havail], ?_, rfl, rfl, rfl⟩
      have := not_lt.mp hclamp
      have hn : (0 : ℚ) ≤ (n : ℚ) := Nat.cast_nonneg n
      linarith
    · rw [if_neg havail]
      dsimp only
      refine ⟨ratTrunc_nonneg _ ?_, le_refl 0, by linarith, rfl, rfl, rfl⟩
      apply mul_nonneg _ (by norm_num)
      apply div_nonneg _ (le_of_lt hrate)
      linarith [not_le.mp havail]

/-- The invariant holds after any chronological call sequence. -/
theorem runBucket_invariant (calls : List (Nat × Int)) :
    ∀ tb : TokenBucket, 0 < tb.rate → 0 ≤ tb.tokens → tb.tokens ≤ tb.maxTokens →
    Chrono tb.lastUpdate calls →
    0 ≤ (runBucket tb calls).1.tokens ∧
    (runBucket tb calls).1.tokens ≤ tb.maxTokens ∧
    (runBucket tb calls).1.maxTokens = tb.maxTokens ∧
    (runBucket tb calls).1.rate = tb.rate ∧
    ∀ w ∈ (runBucket tb calls).2, 0 ≤ w := by
  induction calls with
  | nil =>
    intro tb h1 h2 h3 _
    exact ⟨h2, h3, rfl, rfl, by simp [runBucket]⟩
  | cons c rest ih =>
    intro tb h1 h2 h3 hc
    obtain ⟨hct, hcr⟩ := hc
    obtain ⟨s1, s2, s3, s4, s5, s6⟩ := TokenBucket.take_step tb c.1 c.2 h1 h2 h3 hct
    have ihr := ih (tb.take c.1 c.2).2 (by rw [s5]; exact h1) s2 (by rw [s4]; exact s3)
      (by rw [s6]; exact hcr)
    obtain ⟨i1, i2, i3, i4, i5⟩ := ihr
    refine ⟨?_, ?_, ?_, ?_, ?_⟩
    · simpa [runBucket] using i1
    · simp only [runBucket]
      calc (runBucket (tb.take c.1 c.2).2 rest).1.tokens
          ≤ (tb.take c.1 c.2).2.maxTokens := i2
        _ = tb.maxTokens := s4
    · simp only [runBucket]
      rw [i3, s4]
    · simp only [runBucket]
      rw [i4, s5]
    · simp only [runBucket]
      intro w hw
      rcases List.mem_cons.mp hw with h | h
      · exact h ▸ s1
      · exact i5 w h

/-- C8: from `NewTokenBucket` with positive rate, after any
chronological sequence of `Take` calls the stored token count stays in
`[0, maxTokens]` with `maxTokens = rate`, and no returned wait is
negative. -/
theorem tokenBucket_invariant (r t0 : Int) (calls : List (Nat × Int))
    (hr : 0 < r) (hc : Chrono t0 calls) :
    0 ≤ (runBucket (NewTokenBucket r t0) calls).1.tokens ∧
    (runBucket (NewTokenBucket r t0) calls).1.tokens ≤ (NewTokenBucket r t0).maxTokens ∧
    (NewTokenBucket r t0).maxTokens = (r : ℚ) ∧
    ∀ w ∈ (runBucket (NewTokenBucket r t0) calls).2, 0 ≤ w := by
  have h1 : (0 : ℚ) < (NewTokenBucket r t0).rate := by
    unfold NewTokenBucket
    dsimp only
    exact_mod_cast hr
  have h := runBucket_invariant calls (NewTokenBucket r t0) h1 (le_of_lt h1) (le_refl _) hc
  exact ⟨h.1, h.2.1, rfl, h.2.2.2.2⟩

/-- Witness: a rate-5 bucket with two chronological calls. -/
theorem tokenBucket_invariant_witness :
    ((0 : Int) < 5 ∧ Chrono 0 [(3, 1000000000), (10, 1500000000)]) ∧
    (0 ≤ (runBucket (NewTokenBucket 5 0) [(3, 1000000000), (10, 1500000000)]).1.tokens ∧
     (runBucket (NewTokenBucket 5 0) [(3, 1000000000), (10, 1500000000)]).1.tokens
        ≤ (NewTokenBucket 5 0).maxTokens ∧
     (NewTokenBucket 5 0).maxTokens = ((5 : Int) : ℚ) ∧
     ∀ w ∈ (runBucket (NewTokenBucket 5 0) [(3, 1000000000), (10, 1500000000)]).2, 0 ≤ w) :=
  ⟨⟨by decide, by simp [Chrono]⟩,
   tokenBucket_invariant 5 0 [(3, 1000000000), (10, 1500000000)] (by decide)
     (by simp [Chrono])⟩

/-! ## Claim C5 -/

/-- C5: a loss-dropped write (loss percentage positive and the scaled
uniform draw below it) returns `(|p|, nil)`, increments
`dropped_writes` (after the unconditional `total_writes` increment),
leaves the token bucket untouched and produces no effect at all — in
particular no underlying write and no sleep.  A non-dropped write
produces a trace of bucket waits, then latency/jitter sleeps, then
exactly one underlying write of `p`, in that order. -/
theorem chaosWriter_drop_and_order (c : ChaosWriter) (p : List Nat) (now : Int)
    (draw : ℚ) (jd : Int) (u : Int × Option String) :
    (0 < c.cfg.PacketLossPercent → draw * 100 < c.cfg.PacketLossPercent →
      (c.write p now draw jd u).1 = ((p.length : Int), none) ∧
      (c.write p now draw jd u).2.1.stats.DroppedWrites = c.stats.DroppedWrites + 1 ∧
      (c.write p now draw jd u).2.1.stats.TotalWrites = c.stats.TotalWrites + 1 ∧
      (c.write p now draw jd u).2.1.bucket = c.bucket ∧
      (c.write p now draw jd u).2.2 = []) ∧
    (¬(0 < c.cfg.PacketLossPercent ∧ draw * 100 < c.cfg.PacketLossPercent) →
      ∃ bw sl, (c.write p now draw jd u).2.2 = bw ++ sl ++ [WriteEvent.write p] ∧
        (∀ e ∈ bw, ∃ d, e = WriteEvent.bucketWait d) ∧
        (∀ e ∈ sl, ∃ d, e = WriteEvent.sleep d)) := by
  obtain ⟨cfg, bucket, stats⟩ := c
  constructor
  · intro h1 h2
    unfold ChaosWriter.write
    dsimp only
    rw [if_pos ⟨h1, h2⟩]
    exact ⟨rfl, rfl, rfl, rfl, rfl⟩
  · intro h
    unfold ChaosWriter.write
    dsimp only
    rw [if_neg h]
    dsimp only
    refine ⟨_, _, rfl, ?_, ?_⟩
    · rcases bucket with _ | tb
      · dsimp only
        intro e he
        simp at he
      · dsimp only
        split_ifs
        · intro e he
          rw [List.mem_singleton] at he
          exact ⟨_, he⟩
        · intro e he
          simp at he
    · split_ifs <;> intro e he <;>
        first
        | (rw [List.mem_singleton] at he; exact ⟨_, he⟩)
        | simp at he

/-- Witness: a 50 % loss writer with a draw of 0 drops the write of
three bytes. -/
theorem chaosWriter_drop_and_order_witness :
    ((0 : ℚ) < (ChaosWriter.mk ⟨50, 0, 0, 0⟩ none ⟨0, 0, 0, 0⟩).cfg.PacketLossPercent ∧
     (0 : ℚ) * 100 < (ChaosWriter.mk ⟨50, 0, 0, 0⟩ none ⟨0, 0, 0, 0⟩).cfg.PacketLossPercent) ∧
    (((ChaosWriter.mk ⟨50, 0, 0, 0⟩ none ⟨0, 0, 0, 0⟩).write [1, 2, 3] 0 0 0 (3, none)).1
        = ((3 : Int), none) ∧
     ((ChaosWriter.mk ⟨50, 0, 0, 0⟩ none ⟨0, 0, 0, 0⟩).write [1, 2, 3] 0 0 0
        (3, none)).2.1.stats.DroppedWrites
        = (ChaosWriter.mk ⟨50, 0, 0, 0⟩ none ⟨0, 0, 0, 0⟩).stats.DroppedWrites + 1 ∧
     ((ChaosWriter.mk ⟨50, 0, 0, 0⟩ none ⟨0, 0, 0, 0⟩).write [1, 2, 3] 0 0 0
        (3, none)).2.1.stats.TotalWrites
        = (ChaosWriter.mk ⟨50, 0, 0, 0⟩ none ⟨0, 0, 0, 0⟩).stats.TotalWrites + 1 ∧
     ((ChaosWriter.mk ⟨50, 0, 0, 0⟩ none ⟨0, 0, 0, 0⟩).write [1, 2, 3] 0 0 0
        (3, none)).2.1.bucket = (ChaosWriter.mk ⟨50, 0, 0, 0⟩ none ⟨0, 0, 0, 0⟩).bucket ∧
     ((ChaosWriter.mk ⟨50, 0, 0, 0⟩ none ⟨0, 0, 0, 0⟩).write [1, 2, 3] 0 0 0
        (3, none)).2.2 = []) :=
  ⟨⟨by decide, by simp⟩,
   (chaosWriter_drop_and_order (ChaosWriter.mk ⟨50, 0, 0, 0⟩ none ⟨0, 0, 0, 0⟩)
      [1, 2, 3] 0 0 0 (3, none)).1 (by decide) (by simp)⟩

/-! ## Claim C6 -/

/-- The retry loop makes between 1 and `r + 1` queries, and its sleeps
are the first `queries − 1` entries of the doubling backoff schedule. -/
theorem ensureLoop_bounds (pn : String) :
    ∀ (r : ℕ) (rs : List (Option (List DirPeer))) (b : Int),
    1 ≤ (ensureLoop pn rs (r + 1) b).1 ∧ (ensureLoop pn rs (r + 1) b).1 ≤ r + 1 ∧
    (ensureLoop pn rs (r + 1) b).2.1
      = List.take ((ensureLoop pn rs (r + 1) b).1 - 1) (backoffs r b) := by
  intro r
  induction r with
  | zero =>
    intro rs b
    cases rs with
    | nil => simp [ensureLoop]
    | cons a t =>
      cases a with
      | none => simp [ensureLoop]
      | some peers =>
        cases hfind : peers.find? (fun q => q.Name = pn) <;> simp [ensureLoop, hfind]
  | succ r ih =>
    intro rs b
    cases rs with
    | nil =>
      obtain ⟨i1, i2, i3⟩ := ih [] (b * 2)
      rw [ensureLoop]
      dsimp only
      rw [List.headD_nil]
      dsimp only
      rw [if_neg (by omega)]
      dsimp only
      rw [List.tail_nil]
      refine ⟨by omega, by omega, ?_⟩
      obtain ⟨q', hq⟩ : ∃ q', (ensureLoop pn [] (r + 1) (b * 2)).1 = q' + 1 :=
        ⟨(ensureLoop pn [] (r + 1) (b * 2)).1 - 1, by omega⟩
      rw [i3, hq]
      simp [backoffs, List.take_succ_cons]
    | cons a t =>
      obtain ⟨i1, i2, i3⟩ := ih t (b * 2)
      cases a with
      | none =>
        rw [ensureLoop]
        dsimp only
        rw [List.headD_cons]
        dsimp only
        rw [if_neg (by omega)]
        dsimp only
        rw [List.tail_cons]
        refine ⟨by omega, by omega, ?_⟩
        obtain ⟨q', hq⟩ : ∃ q', (ensureLoop pn t (r + 1) (b * 2)).1 = q' + 1 :=
          ⟨(ensureLoop pn t (r + 1) (b * 2)).1 - 1, by omega⟩
        rw [i3, hq]
        simp [backoffs, List.take_succ_cons]
      | some peers =>
        rw [ensureLoop]
        dsimp only
        rw [List.headD_cons]
        dsimp only
        cases hfind : peers.find? (fun q => q.Name = pn) <;> simp [hfind, backoffs]

/-- After `k` directory errors, a response arriving at attempt `k + 1`
ends the loop with the find result, having slept the first `k`
backoffs. -/
theorem ensureLoop_replicate (pn : String) (l : List DirPeer)
    (rest : List (Option (List DirPeer))) :
    ∀ (k r : ℕ) (b : Int), k ≤ r →
    ensureLoop pn (List.replicate k none ++ some l :: rest) (r + 1) b
      = (k + 1, List.take k (backoffs r b), l.find? (fun q => q.Name = pn)) := by
  intro k
  induction k with
  | zero =>
    intro r b _
    cases hfind : l.find? (fun q => q.Name = pn) <;>
      simp [ensureLoop, hfind]
  | succ k ih =>
    intro r b hk
    obtain ⟨r2, rfl⟩ : ∃ r2, r = r2 + 1 := ⟨r - 1, by omega⟩
    have hrec := ih r2 (b * 2) (by omega)
    rw [List.replicate_succ, List.cons_append, ensureLoop]
    try dsimp only
    rw [List.headD_cons]
    try dsimp only
    rw [if_neg (by omega)]
    try dsimp only
    rw [List.tail_cons, hrec]
    simp [backoffs, List.take_succ_cons]

/-- C6 (amended): `ensurePeerRoute` queries the directory at most five
times, sleeping between failed attempts with the four doubling backoffs
500 ms, 1 s, 2 s, 4 s (there is no fifth, 8 s, sleep: after the fifth
failure the loop ends); the mesh-IP cache is consulted exactly when the
directory did not yield the peer; a successful lookup after `k < 5`
errors caches the peer's mesh IP and installs its public key exactly
when the key is nonempty, the SSH transport exists and the key decodes;
and a directory response that does not list the peer stops the loop at
that attempt (no retry) and falls back to the cache. -/
theorem ensurePeerRoute_spec :
    (∀ (responses : List (Option (List DirPeer))) (pn : String) (cache : Option String)
        (ssh : Bool) (dec : String → Bool),
      (ensurePeerRoute true responses pn cache ssh dec).queries ≤ 5 ∧
      (ensurePeerRoute true responses pn cache ssh dec).sleeps
        = List.take ((ensurePeerRoute true responses pn cache ssh dec).queries - 1)
            [500, 1000, 2000, 4000] ∧
      (ensurePeerRoute true responses pn cache ssh dec).cacheConsulted
        = !(ensurePeerRoute true responses pn cache ssh dec).cachedPut) ∧
    (∀ (pn : String) (cache : Option String) (ssh : Bool) (dec : String → Bool)
        (k : ℕ) (l : List DirPeer) (p : DirPeer) (rest : List (Option (List DirPeer))),
      k < 5 → l.find? (fun q => q.Name = pn) = some p →
      ensurePeerRoute true (List.replicate k none ++ some l :: rest) pn cache ssh dec
        = ⟨k + 1, List.take k [500, 1000, 2000, 4000], p.MeshIP, true,
            decide (p.PublicKey ≠ "") && ssh && dec p.PublicKey, false⟩) ∧
    (∀ (pn : String) (cache : Option String) (ssh : Bool) (dec : String → Bool)
        (k : ℕ) (l : List DirPeer) (rest : List (Option (List DirPeer))),
      k < 5 → l.find? (fun q => q.Name = pn) = none →
      (ensurePeerRoute true (List.replicate k none ++ some l :: rest) pn cache ssh
          dec).queries = k + 1 ∧
      (ensurePeerRoute true (List.replicate k none ++ some l :: rest) pn cache ssh
          dec).cacheConsulted = true) := by
  refine ⟨?_, ?_, ?_⟩
  · intro responses pn cache ssh dec
    obtain ⟨b1, b2, b3⟩ := ensureLoop_bounds pn 4 responses 500
    simp only [show (4 : ℕ) + 1 = 5 from rfl] at b1 b2 b3
    unfold ensurePeerRoute
    rw [if_pos rfl]
    dsimp only
    cases ho : (ensureLoop pn responses 5 500).2.2 with
    | some p =>
      try dsimp only
      exact ⟨b2, by rw [b3]; rfl, rfl⟩
    | none =>
      try dsimp only
      exact ⟨b2, by rw [b3]; rfl, rfl⟩
  · intro pn cache ssh dec k l p rest hk hfind
    have hrep := ensureLoop_replicate pn l rest k 4 500 (by omega)
    rw [hfind] at hrep
    simp only [show (4 : ℕ) + 1 = 5 from rfl] at hrep
    unfold ensurePeerRoute
    rw [if_pos rfl]
    dsimp only
    rw [hrep]
    rfl
  · intro pn cache ssh dec k l rest hk hfind
    have hrep := ensureLoop_replicate pn l rest k 4 500 (by omega)
    rw [hfind] at hrep
    simp only [show (4 : ℕ) + 1 = 5 from rfl] at hrep
    unfold ensurePeerRoute
    rw [if_pos rfl]
    dsimp only
    rw [hrep]
    exact ⟨rfl, rfl⟩

/-- Witness: one directory error, then a response listing the peer:
two queries, one 500 ms sleep, mesh IP cached, key installed. -/
theorem ensurePeerRoute_spec_witness :
    ((1 : ℕ) < 5 ∧ [DirPeer.mk "p" "10.99.0.7" "k"].find? (fun q => q.Name = "p")
        = some (DirPeer.mk "p" "10.99.0.7" "k")) ∧
    ensurePeerRoute true
        (List.replicate 1 none ++ some [DirPeer.mk "p" "10.99.0.7" "k"] :: [])
        "p" none true (fun _ => true)
      = ⟨1 + 1, List.take 1 [500, 1000, 2000, 4000], "10.99.0.7", true,
          decide ((DirPeer.mk "p" "10.99.0.7" "k").PublicKey ≠ "") && true
            && (fun _ => true) (DirPeer.mk "p" "10.99.0.7" "k").PublicKey, false⟩ :=
  ⟨⟨by decide, by decide⟩,
   ensurePeerRoute_spec.2.1 "p" none true (fun _ => true) 1
     [DirPeer.mk "p" "10.99.0.7" "k"] (DirPeer.mk "p" "10.99.0.7" "k") []
     (by decide) (by decide)⟩

/-- C6 fails as literally stated: when all five directory attempts fail,
the backoff sleeps are 500 ms, 1 s, 2 s and 4 s only — the claimed fifth
8 s sleep never happens. -/
theorem ensurePeerRoute_sleeps_counterexample :
    ensurePeerRoute true [none, none, none, none, none] "p" none false (fun _ => false)
      = ⟨5, [500, 1000, 2000, 4000], "", false, false, true⟩ ∧
    (8000 : Int) ∉ [(500 : Int), 1000, 2000, 4000] := by
  constructor
  · rfl
  · decide

end Tunnelmesh
